import Mathlib

/-!
Verification of the isosurface mesh extractor (Isosurface.cpp) against its
natural-language specification.

The embedding is shallow: C++ floats are idealized as rationals, the
std::vector arrays as Lean lists, the std::map vertex de-duplication buffer
as an association list, and the mutable Isosurface object as an explicit
IsoState record threaded through calculate / update / generateObject.

The repository ships Isosurface.cpp but not Isosurface.h.  Everything that
lives only in the missing header (the SkeletonNode base class, the
BlendingFunction enum, the marching-cubes lookup tables and the small POD
structs) is modelled from the spec; each such definition carries a doc
comment starting with "Modelled from the spec:".  Everything else is a
direct translation of Isosurface.cpp.
-/

namespace MarchingCubes

/-- Vector3 of the host math library: a 3D vector with element-wise
arithmetic, here over the rationals (idealized floats). -/
structure Vec3 where
  x : ℚ
  y : ℚ
  z : ℚ
deriving DecidableEq

instance : Add Vec3 := ⟨fun a b => ⟨a.x + b.x, a.y + b.y, a.z + b.z⟩⟩
instance : Sub Vec3 := ⟨fun a b => ⟨a.x - b.x, a.y - b.y, a.z - b.z⟩⟩
instance : SMul ℚ Vec3 := ⟨fun c v => ⟨c * v.x, c * v.y, c * v.z⟩⟩

/-- Modelled from the spec: the polymorphic SkeletonNode base class from the
missing header.  It exposes a distance function, an influence radius and
axis-aligned extents; the Sphere variant instantiates getDistanceTo with the
Euclidean distance to its center.  The claims quantify over skeletons, so the
distance function is kept abstract (any function, as for the C++ virtual). -/
structure SkeletonNode where
  getDistanceTo : Vec3 → ℚ
  radius : ℚ
  extendsFrom : Vec3
  extendsTo : Vec3

/-- Modelled from the spec: BlendingFunction is an enumerated tag
SPORE, ..., NONE with NONE the sentinel upper bound used for validation;
only SPORE is realized, so the numeric values are SPORE = 0, NONE = 1. -/
def SPORE : ℤ := 0

/-- Modelled from the spec: the sentinel upper bound of the BlendingFunction
enum (see SPORE). -/
def NONE : ℤ := 1

/-- Modelled from the spec: the IndexedTriangle POD (int i[3]) of the missing
header: three indices into the vertex array. -/
structure IndexedTriangle where
  i0 : ℤ
  i1 : ℤ
  i2 : ℤ
deriving DecidableEq

/-- Modelled from the spec: the geometric Triangle POD (Ogre::Vector3 p[3])
of the missing header, emitted transiently by the per-cell triangulator.
Corners are indexed 0, 1, 2; other indices are never used. -/
structure Triangle where
  p : ℕ → Vec3

/-- Modelled from the spec: the Cell POD of the missing header: eight corner
positions, eight scalar values and the corner-classification bitmask.
The C++ struct also carries the mutable iEdgeFlags field that Triangulate
fills in; here it is a local value of Triangulate.  iFlagIndex is built
starting from 0 (the spec: bit i is set iff val[i] <= tau). -/
structure Cell where
  p : ℕ → Vec3
  val : ℕ → ℚ
  iFlagIndex : ℕ

/-- FLT_MAX, the largest finite single-precision float, exact as a rational:
(2 - 2^-23) * 2^127. -/
def FLT_MAX : ℚ := 2 ^ 128 - 2 ^ 104

/-- The state of an Isosurface object: the fields of the C++ class.
mVertexHash (the IndexBuffer, a std::map from position-keyed VertexKey to
vertex index) is modelled as an association list in insertion order; its
find/insert semantics is hashFind / append. -/
structure IsoState where
  mSkeleton : List SkeletonNode
  mCubeSize : ℚ
  mBlendingFunction : ℤ
  mTargetValue : ℚ
  mVertices : List Vec3
  mNormals : List Vec3
  mTriangles : List IndexedTriangle
  mVertexHash : List (Vec3 × ℤ)
  mExtendsFrom : Vec3
  mExtendsTo : Vec3

/-- Default-constructed Isosurface object (all vectors empty; the scalar
members, indeterminate in C++, are taken as 0). -/
def initState : IsoState :=
  { mSkeleton := [], mCubeSize := 0, mBlendingFunction := 0, mTargetValue := 0,
    mVertices := [], mNormals := [], mTriangles := [], mVertexHash := [],
    mExtendsFrom := ⟨0, 0, 0⟩, mExtendsTo := ⟨0, 0, 0⟩ }

/-- The per-node potential kernel, the body of the loop of
Isosurface::IsoValue (Isosurface.cpp lines 332-338): with
d = radius * 10 and r = getDistanceTo(pos) / radius, contribute
(r^4 - 2 r^2 + 1) / (1 + d r^2) when r <= 1 and 0 otherwise. -/
def nodePotential (node : SkeletonNode) (pos : Vec3) : ℚ :=
  let d := node.radius * 10
  let r := node.getDistanceTo pos / node.radius
  if r ≤ 1 then (r ^ 4 - 2 * r * r + 1) / (1 + d * r * r) else 0

/-- Isosurface::IsoValue (Isosurface.cpp lines 323-345).  The loop body ends
in an unconditional break (line 340), so the potential accumulates the
kernel of the FIRST skeleton node only; an empty skeleton yields 0. -/
def IsoValue (skeleton : List SkeletonNode) (pos : Vec3) : ℚ :=
  match skeleton with
  | [] => 0
  | node :: _ => 0 + nodePotential node pos

/-- The scalar field evaluator as the spec words it (section 4.2): the kernel
is summed across ALL skeleton nodes.  This is the comparison definition for
the refinement claim about IsoValue. -/
def IsoValueSpec (skeleton : List SkeletonNode) (pos : Vec3) : ℚ :=
  skeleton.foldl (fun potential node => potential + nodePotential node pos) 0

/-- Isosurface::getNormal (Isosurface.cpp lines 299-315) up to the final
normal.normalise() call.  Note line 307: the first z sample is taken at
(vertex.x, vertex.z, vertex.z - cubeSize), with vertex.z where vertex.y
would be expected.  The trailing normalise() divides by the float L2 norm,
which has no exact rational counterpart; it rescales by a positive factor
(and leaves the zero vector unchanged under Ogre's length guard), so the
mesh below stores these unnormalised gradients.  Every property settled
here that involves normals is invariant under that direction-preserving
rescaling. -/
def getNormal (skeleton : List SkeletonNode) (cubeSize : ℚ) (vertex : Vec3) : Vec3 :=
  let iso_x1 := IsoValue skeleton ⟨vertex.x - cubeSize, vertex.y, vertex.z⟩
  let iso_x2 := IsoValue skeleton ⟨vertex.x + cubeSize, vertex.y, vertex.z⟩
  let iso_y1 := IsoValue skeleton ⟨vertex.x, vertex.y - cubeSize, vertex.z⟩
  let iso_y2 := IsoValue skeleton ⟨vertex.x, vertex.y + cubeSize, vertex.z⟩
  let iso_z1 := IsoValue skeleton ⟨vertex.x, vertex.z, vertex.z - cubeSize⟩
  let iso_z2 := IsoValue skeleton ⟨vertex.x, vertex.y, vertex.z + cubeSize⟩
  ⟨iso_x1 - iso_x2, iso_y1 - iso_y2, iso_z1 - iso_z2⟩

/-- The normal as the spec words it (section 4.2): the negated
central-difference gradient of isoValue, each axis sampled symmetrically
with step h = cubeSize (before L2 normalization).  This is the comparison
definition for the refinement claim about getNormal. -/
def getNormalSpec (skeleton : List SkeletonNode) (cubeSize : ℚ) (vertex : Vec3) : Vec3 :=
  ⟨IsoValue skeleton ⟨vertex.x - cubeSize, vertex.y, vertex.z⟩ -
     IsoValue skeleton ⟨vertex.x + cubeSize, vertex.y, vertex.z⟩,
   IsoValue skeleton ⟨vertex.x, vertex.y - cubeSize, vertex.z⟩ -
     IsoValue skeleton ⟨vertex.x, vertex.y + cubeSize, vertex.z⟩,
   IsoValue skeleton ⟨vertex.x, vertex.y, vertex.z - cubeSize⟩ -
     IsoValue skeleton ⟨vertex.x, vertex.y, vertex.z + cubeSize⟩⟩

/-- getMapIndex (Isosurface.cpp lines 91-100): conversion of a 3D index to a
1D index.  The depth argument is unused, as in the source. -/
def getMapIndex (x y z width height _depth : ℤ) : ℤ :=
  z * width * height + y * width + x

/-- The sequence of writes performed by the triple loop of
Isosurface::fillScalarField (Isosurface.cpp lines 275-293), in loop order
(z outermost, x innermost): each iteration targets slot
getMapIndex(x, y, z, xAmount+1, yAmount+1, zAmount+1) with the value
IsoValue(mExtendsFrom + (x cubeSize, y cubeSize, z cubeSize)). -/
def scalarWrites (skeleton : List SkeletonNode) (efrom : Vec3) (cubeSize : ℚ)
    (xAmount yAmount zAmount : ℕ) : List (ℕ × ℚ) :=
  (List.range (zAmount + 1)).flatMap fun (z : ℕ) =>
    (List.range (yAmount + 1)).flatMap fun (y : ℕ) =>
      (List.range (xAmount + 1)).map fun (x : ℕ) =>
        ((getMapIndex x y z (xAmount + 1) (yAmount + 1) (zAmount + 1)).toNat,
          IsoValue skeleton
            ⟨efrom.x + x * cubeSize, efrom.y + y * cubeSize, efrom.z + z * cubeSize⟩)

/-- Isosurface::fillScalarField (Isosurface.cpp lines 272-294) together with
the allocation and -1 initialization of the scalar field array performed by
generateObject (lines 121-125): the (xAmount+1)(yAmount+1)(zAmount+1) array
starts as -1 everywhere and the triple loop overwrites every slot.  The
source asserts that each slot still holds -1 when it is written (visited
exactly once); that assertion is validated by the C5 theorem below. -/
def fillScalarField (skeleton : List SkeletonNode) (efrom : Vec3) (cubeSize : ℚ)
    (xAmount yAmount zAmount : ℕ) : List ℚ :=
  (scalarWrites skeleton efrom cubeSize xAmount yAmount zAmount).foldl
    (fun field w => field.set w.1 w.2)
    (List.replicate ((xAmount + 1) * (yAmount + 1) * (zAmount + 1)) (-1))

/-- Modelled from the spec: cubeOffsets, the eight corner offsets in the
canonical order of the Paul Bourke reference tables (the table constants
live in the missing header). -/
def cubeOffsets : ℕ → ℕ × ℕ × ℕ
  | 0 => (0, 0, 0)
  | 1 => (1, 0, 0)
  | 2 => (1, 1, 0)
  | 3 => (0, 1, 0)
  | 4 => (0, 0, 1)
  | 5 => (1, 0, 1)
  | 6 => (1, 1, 1)
  | _ => (0, 1, 1)

/-- Modelled from the spec: a2iEdgeConnection, the two corner indices joined
by each of the 12 cube edges, in the order of the Bourke reference. -/
def a2iEdgeConnection : ℕ → ℕ × ℕ
  | 0 => (0, 1)
  | 1 => (1, 2)
  | 2 => (2, 3)
  | 3 => (3, 0)
  | 4 => (4, 5)
  | 5 => (5, 6)
  | 6 => (6, 7)
  | 7 => (7, 4)
  | 8 => (0, 4)
  | 9 => (1, 5)
  | 10 => (2, 6)
  | _ => (3, 7)

/-- Modelled from the spec: aiCubeEdgeFlags, the 256-entry edge-flag table of
the missing header.  The spec defines it as the bitmask of the 12 edges
crossed by the surface, keyed by the corner-classification bitmask; an edge
is crossed exactly when its two corners classify differently, which is how
the Bourke table is generated. -/
def aiCubeEdgeFlags (iFlagIndex : ℕ) : ℕ :=
  (List.range 12).foldl
    (fun flags iEdge =>
      if iFlagIndex.testBit (a2iEdgeConnection iEdge).1 ≠
          iFlagIndex.testBit (a2iEdgeConnection iEdge).2
      then flags ||| (1 <<< iEdge) else flags) 0

/-- The linear edge interpolation of Isosurface::Triangulate (Isosurface.cpp
lines 236-242): with p1, p2 the edge's corners,
length = val[p1] / (val[p2] + val[p1]) and the intersection point is
p[p1] + length * (p[p2] - p[p1]). -/
def interpEdgeVertex (cell : Cell) (iEdge : ℕ) : Vec3 :=
  let p1 := (a2iEdgeConnection iEdge).1
  let p2 := (a2iEdgeConnection iEdge).2
  let length := cell.val p1 / (cell.val p2 + cell.val p1)
  cell.p p1 + length • (cell.p p2 - cell.p p1)

/-- The asEdgeVertex array of Isosurface::Triangulate (Isosurface.cpp lines
224-244): the entry of a flagged edge holds the interpolated crossing
point; unflagged entries are left uninitialized in the source (they are
never read through a correct table) and are 0 here. -/
def asEdgeVertex (cell : Cell) (iEdge : ℕ) : Vec3 :=
  if (aiCubeEdgeFlags cell.iFlagIndex).testBit iEdge
  then interpEdgeVertex cell iEdge else ⟨0, 0, 0⟩

/-- Corner lookup with an int table entry (the entries of the triangle
connection table are ints; valid entries are edge indices 0..11). -/
def asEdgeVertexZ (cell : Cell) (iVertex : ℤ) : Vec3 :=
  asEdgeVertex cell iVertex.toNat

/-- The triangle-emission loop of Isosurface::Triangulate (Isosurface.cpp
lines 247-260): iTriangle counts up while fuel counts down from 5; the loop
breaks at the first table row head that is negative (the -1 sentinel). -/
def triLoop (tTable : ℕ → ℕ → ℤ) (iFlagIndex : ℕ) (mk : ℕ → Triangle) :
    ℕ → ℕ → List Triangle
  | _, 0 => []
  | iTriangle, fuel + 1 =>
    if tTable iFlagIndex (3 * iTriangle) < 0 then []
    else mk iTriangle :: triLoop tTable iFlagIndex mk (iTriangle + 1) fuel

/-- Isosurface::Triangulate (Isosurface.cpp lines 213-262), parametric in
the a2iTriangleConnectionTable constant of the missing header (row
iFlagIndex, slot k).  Looks up the edge flags, returns no triangles when
they are zero, otherwise interpolates the flagged edges and reads the
table three edge indices at a time until the -1 sentinel, for at most 5
triangles. -/
def Triangulate (tTable : ℕ → ℕ → ℤ) (cell : Cell) : List Triangle :=
  let iEdgeFlags := aiCubeEdgeFlags cell.iFlagIndex
  if iEdgeFlags = 0 then []
  else
    triLoop tTable cell.iFlagIndex
      (fun iTriangle =>
        { p := fun iCorner => asEdgeVertexZ cell (tTable cell.iFlagIndex (3 * iTriangle + iCorner)) })
      0 5

/-- Modelled from the spec: the rows of a2iTriangleConnectionTable exercised
by the concrete runs in this file.  The full 256 x 16 table lives in the
missing header and the spec pins only its shape (up to 5 triangles per row,
-1 sentinel terminated, bit-exact copy of the Bourke reference), not its
entries; the concrete runs below only ever read row 1, which in the Bourke
table is 0, 8, 3 followed by sentinels (rows 0 and 255 are looked up but
never read, their edge flags being zero).  All parametric theorems hold for
every table. -/
def triTableRef (iFlagIndex : ℕ) (k : ℕ) : ℤ :=
  if iFlagIndex = 1 then
    (if k = 0 then 0 else if k = 1 then 8 else if k = 2 then 3 else -1)
  else -1

/-- std::map::find on the vertex de-duplication buffer (first entry with the
given position key, if any).  Insertion only happens on a failed find, so
keys are unique and insertion order is irrelevant to lookups. -/
def hashFind : List (Vec3 × ℤ) → Vec3 → Option ℤ
  | [], _ => none
  | e :: rest, key => if e.1 = key then some e.2 else hashFind rest key

/-- The accumulator of the marching loop of Isosurface::generateObject:
the four mesh members of the object plus the local iVertexIndex counter. -/
structure MarchAcc where
  hash : List (Vec3 × ℤ)
  iVertexIndex : ℤ
  verts : List Vec3
  norms : List Vec3
  tris : List IndexedTriangle

/-- The per-corner body of the vertex/index buffer fill of generateObject
(Isosurface.cpp lines 171-196): look the position up in mVertexHash; if
absent, append the mapping, the vertex and its normal and take the fresh
index, otherwise reuse the stored index. -/
def processCorner (skeleton : List SkeletonNode) (cubeSize : ℚ)
    (acc : MarchAcc) (pos : Vec3) : MarchAcc × ℤ :=
  match hashFind acc.hash pos with
  | some idx => (acc, idx)
  | none =>
    ({ hash := acc.hash ++ [(pos, acc.iVertexIndex)],
       iVertexIndex := acc.iVertexIndex + 1,
       verts := acc.verts ++ [pos],
       norms := acc.norms ++ [getNormal skeleton cubeSize pos],
       tris := acc.tris }, acc.iVertexIndex)

/-- The per-triangle body of generateObject (Isosurface.cpp lines 167-200):
process the three corners in order, then append the IndexedTriangle of
their indices. -/
def processTriangle (skeleton : List SkeletonNode) (cubeSize : ℚ)
    (acc : MarchAcc) (tri : Triangle) : MarchAcc :=
  let r0 := processCorner skeleton cubeSize acc (tri.p 0)
  let r1 := processCorner skeleton cubeSize r0.1 (tri.p 1)
  let r2 := processCorner skeleton cubeSize r1.1 (tri.p 2)
  { r2.1 with tris := r2.1.tris ++ [⟨r0.2, r1.2, r2.2⟩] }

/-- The local cell construction of generateObject (Isosurface.cpp lines
140-160): for each corner i, the absolute position
mExtendsFrom + cubeSize * (x + offset), the scalar value read from the
field at getMapIndex, and the classification bitmask built by setting bit
i when val[i] <= mTargetValue. -/
def buildCell (field : List ℚ) (xAmount yAmount zAmount : ℕ) (efrom : Vec3)
    (cubeSize targetValue : ℚ) (x y z : ℕ) : Cell :=
  let val : ℕ → ℚ := fun i =>
    field.getD
      (getMapIndex (x + (cubeOffsets i).1) (y + (cubeOffsets i).2.1)
        (z + (cubeOffsets i).2.2)
        (xAmount + 1) (yAmount + 1) (zAmount + 1)).toNat 0
  { p := fun i =>
      ⟨efrom.x + cubeSize * (x + (cubeOffsets i).1 : ℕ),
       efrom.y + cubeSize * (y + (cubeOffsets i).2.1 : ℕ),
       efrom.z + cubeSize * (z + (cubeOffsets i).2.2 : ℕ)⟩,
    val := val,
    iFlagIndex :=
      (List.range 8).foldl
        (fun fi i => if val i ≤ targetValue then fi ||| (1 <<< i) else fi) 0 }

/-- One iteration of the cell loop of generateObject (Isosurface.cpp lines
138-201): build the local cell, triangulate it and fill the vertex and
index buffers. -/
def processCell (tTable : ℕ → ℕ → ℤ) (skeleton : List SkeletonNode)
    (cubeSize targetValue : ℚ) (field : List ℚ)
    (xAmount yAmount zAmount : ℕ) (efrom : Vec3)
    (acc : MarchAcc) (x y z : ℕ) : MarchAcc :=
  (Triangulate tTable
      (buildCell field xAmount yAmount zAmount efrom cubeSize targetValue x y z)).foldl
    (processTriangle skeleton cubeSize) acc

/-- The march over all cells (Isosurface.cpp lines 134-203): z outermost,
x innermost, cell coordinates below the cube amounts. -/
def marchCubes (tTable : ℕ → ℕ → ℤ) (skeleton : List SkeletonNode)
    (cubeSize targetValue : ℚ) (field : List ℚ)
    (xAmount yAmount zAmount : ℕ) (efrom : Vec3) (acc0 : MarchAcc) : MarchAcc :=
  (List.range zAmount).foldl
    (fun accz z =>
      (List.range yAmount).foldl
        (fun accy y =>
          (List.range xAmount).foldl
            (fun accx x =>
              processCell tTable skeleton cubeSize targetValue field
                xAmount yAmount zAmount efrom accx x y z)
            accy)
        accz)
    acc0

/-- The C++ conversion of a positive float to int in
"int xAmount = boundingBox.x / mCubeSize + 1" (Isosurface.cpp lines
116-118): truncation toward zero. -/
def cppFloatToInt (q : ℚ) : ℤ :=
  if q < 0 then -⌊-q⌋ else ⌊q⌋

/-- Isosurface::generateObject (Isosurface.cpp lines 106-206), parametric in
the triangle connection table.  If every bounding-box axis exceeds
mCubeSize: compute the cube amounts, build the scalar field, march all
cells seeding the buffers with the CURRENT object members (mVertexHash and
mTriangles included) and the local vertex counter with 0, and store the
results back; otherwise leave the object untouched. -/
def generateObject (tTable : ℕ → ℕ → ℤ) (s : IsoState) : IsoState :=
  let boundingBox := s.mExtendsTo - s.mExtendsFrom
  if boundingBox.x > s.mCubeSize ∧ boundingBox.y > s.mCubeSize ∧
      boundingBox.z > s.mCubeSize then
    let xAmount := (cppFloatToInt (boundingBox.x / s.mCubeSize + 1)).toNat
    let yAmount := (cppFloatToInt (boundingBox.y / s.mCubeSize + 1)).toNat
    let zAmount := (cppFloatToInt (boundingBox.z / s.mCubeSize + 1)).toNat
    let field := fillScalarField s.mSkeleton s.mExtendsFrom s.mCubeSize
      xAmount yAmount zAmount
    let acc := marchCubes tTable s.mSkeleton s.mCubeSize s.mTargetValue field
      xAmount yAmount zAmount s.mExtendsFrom
      { hash := s.mVertexHash, iVertexIndex := 0, verts := s.mVertices,
        norms := s.mNormals, tris := s.mTriangles }
    { s with mVertices := acc.verts, mNormals := acc.norms,
             mTriangles := acc.tris, mVertexHash := acc.hash }
  else s

/-- The bounding-box fold of Isosurface::calculate (Isosurface.cpp lines
62-72), seeded with the FLT_MAX / -FLT_MAX initialization of lines 51-52:
componentwise min of extendsFrom and max of extendsTo over all nodes,
written with the comparisons of the source. -/
def foldExtends (skeleton : List SkeletonNode) : Vec3 × Vec3 :=
  skeleton.foldl
    (fun acc node =>
      (⟨if node.extendsFrom.x < acc.1.x then node.extendsFrom.x else acc.1.x,
        if node.extendsFrom.y < acc.1.y then node.extendsFrom.y else acc.1.y,
        if node.extendsFrom.z < acc.1.z then node.extendsFrom.z else acc.1.z⟩,
       ⟨if node.extendsTo.x > acc.2.x then node.extendsTo.x else acc.2.x,
        if node.extendsTo.y > acc.2.y then node.extendsTo.y else acc.2.y,
        if node.extendsTo.z > acc.2.z then node.extendsTo.z else acc.2.z⟩))
    (⟨FLT_MAX, FLT_MAX, FLT_MAX⟩, ⟨-FLT_MAX, -FLT_MAX, -FLT_MAX⟩)

/-- The assertion of Isosurface::calculate lines 55-56 as a predicate:
the call does NOT abort exactly when mCubeSize > 0 and
mBlendingFunction >= 0 && mBlendingFunction <= NONE. -/
def calculateAssertsHold (cubeSize : ℚ) (blend : ℤ) : Prop :=
  0 < cubeSize ∧ (0 ≤ blend ∧ blend ≤ NONE)

/-- Valid configuration as the claims and the spec word it (sections 3 and
6): cubeSize > 0 and 0 <= blend < NONE. -/
def validConfiguration (cubeSize : ℚ) (blend : ℤ) : Prop :=
  0 < cubeSize ∧ (0 ≤ blend ∧ blend < NONE)

/-- Isosurface::calculate (Isosurface.cpp lines 35-77), parametric in the
triangle connection table: store the arguments, clear the vertex, normal,
triangle and de-duplication members, reset the extents to FLT_MAX /
-FLT_MAX, and when the skeleton is non-empty fold the union bounding box
and generate the object.  (The asserts of lines 55-56 are modelled by
calculateAssertsHold; debug builds abort when it fails, release builds
proceed, as does this embedding.) -/
def calculate (tTable : ℕ → ℕ → ℤ) (skeleton : List SkeletonNode)
    (cubeSize : ℚ) (blend : ℤ) (targetValue : ℚ) (s : IsoState) : IsoState :=
  let s1 : IsoState :=
    { s with
      mSkeleton := skeleton, mCubeSize := cubeSize,
      mBlendingFunction := blend, mTargetValue := targetValue,
      mVertices := [], mNormals := [], mTriangles := [], mVertexHash := [],
      mExtendsFrom := ⟨FLT_MAX, FLT_MAX, FLT_MAX⟩,
      mExtendsTo := ⟨-FLT_MAX, -FLT_MAX, -FLT_MAX⟩ }
  if 0 < skeleton.length then
    generateObject tTable
      { s1 with mExtendsFrom := (foldExtends skeleton).1,
                mExtendsTo := (foldExtends skeleton).2 }
  else s1

/-- Isosurface::update (Isosurface.cpp lines 79-86), parametric in the
triangle connection table: store the new skeleton, clear mVertices and
mNormals (and nothing else -- mTriangles, mVertexHash and the extents keep
their previous contents), and regenerate. -/
def update (tTable : ℕ → ℕ → ℤ) (skeleton : List SkeletonNode)
    (s : IsoState) : IsoState :=
  generateObject tTable
    { s with mSkeleton := skeleton, mVertices := [], mNormals := [] }

/-- The mesh invariant claimed for the extractor (spec section 8): as many
normals as vertices, every stored triangle index within [0, |vertices|),
and no position occurring twice in the vertex array. -/
def meshInvariant (s : IsoState) : Prop :=
  s.mNormals.length = s.mVertices.length ∧
  (∀ t ∈ s.mTriangles,
    (0 ≤ t.i0 ∧ t.i0 < (s.mVertices.length : ℤ)) ∧
    (0 ≤ t.i1 ∧ t.i1 < (s.mVertices.length : ℤ)) ∧
    (0 ≤ t.i2 ∧ t.i2 < (s.mVertices.length : ℤ))) ∧
  s.mVertices.Nodup

/-! Concrete inputs used by the witnesses and counterexamples below. -/

/-- Concrete skeleton node for run 1. -/
def nodeA : SkeletonNode :=
  { getDistanceTo := fun p => if p = ⟨0, 0, 0⟩ then 1 else 0,
    radius := 1, extendsFrom := ⟨0, 0, 0⟩, extendsTo := ⟨3/2, 3/2, 3/2⟩ }

def fld1 : List ℚ :=
  [0, 1, 1, 1, 1, 1, 1, 1, 1, 1, 1, 1, 1, 1,
   1, 1, 1, 1, 1, 1, 1, 1, 1, 1, 1, 1, 1]

def fld0 : List ℚ := List.replicate 27 0

def stateA : IsoState :=
  { mSkeleton := [nodeA], mCubeSize := 1, mBlendingFunction := 0, mTargetValue := 0,
    mVertices := [⟨0, 0, 0⟩], mNormals := [⟨0, 0, 0⟩], mTriangles := [⟨0, 0, 0⟩],
    mVertexHash := [(⟨0, 0, 0⟩, 0)],
    mExtendsFrom := ⟨0, 0, 0⟩, mExtendsTo := ⟨3/2, 3/2, 3/2⟩ }

def stateUpd : IsoState :=
  { mSkeleton := [], mCubeSize := 1, mBlendingFunction := 0, mTargetValue := 0,
    mVertices := [], mNormals := [], mTriangles := [⟨0, 0, 0⟩],
    mVertexHash := [(⟨0, 0, 0⟩, 0)],
    mExtendsFrom := ⟨0, 0, 0⟩, mExtendsTo := ⟨3/2, 3/2, 3/2⟩ }

/-- Translation of a skeleton node by a vector: the center (hence the whole
distance field) and both extents move together. -/
def translateNode (d : Vec3) (n : SkeletonNode) : SkeletonNode :=
  { getDistanceTo := fun p => n.getDistanceTo (p - d),
    radius := n.radius,
    extendsFrom := n.extendsFrom + d,
    extendsTo := n.extendsTo + d }

def nodeT1 : SkeletonNode :=
  { getDistanceTo := fun p =>
      if p = ⟨0, 0, 0⟩ then 1 else if p = ⟨0, -1, -1⟩ then 2 else 0,
    radius := 1, extendsFrom := ⟨0, 0, 0⟩, extendsTo := ⟨3/2, 3/2, 3/2⟩ }

def nodeT2 : SkeletonNode := translateNode ⟨0, 1, 0⟩ nodeT1

def stateT1 : IsoState :=
  { mSkeleton := [nodeT1], mCubeSize := 1, mBlendingFunction := 0, mTargetValue := 0,
    mVertices := [⟨0, 0, 0⟩], mNormals := [⟨0, 0, 0⟩], mTriangles := [⟨0, 0, 0⟩],
    mVertexHash := [(⟨0, 0, 0⟩, 0)],
    mExtendsFrom := ⟨0, 0, 0⟩, mExtendsTo := ⟨3/2, 3/2, 3/2⟩ }

def stateT2 : IsoState :=
  { mSkeleton := [nodeT2], mCubeSize := 1, mBlendingFunction := 0, mTargetValue := 0,
    mVertices := [⟨0, 1, 0⟩], mNormals := [⟨0, 0, -1⟩], mTriangles := [⟨0, 0, 0⟩],
    mVertexHash := [(⟨0, 1, 0⟩, 0)],
    mExtendsFrom := ⟨0, 1, 0⟩, mExtendsTo := ⟨3/2, 5/2, 3/2⟩ }

def nodeC1 : SkeletonNode :=
  { getDistanceTo := fun _ => 0, radius := 1,
    extendsFrom := ⟨0, 0, 0⟩, extendsTo := ⟨0, 0, 0⟩ }

def nodeC2 : SkeletonNode :=
  { getDistanceTo := fun p => if p = ⟨0, 0, -1⟩ then 2 else 0, radius := 1,
    extendsFrom := ⟨0, 0, 0⟩, extendsTo := ⟨0, 0, 0⟩ }

def nodeW : SkeletonNode :=
  { getDistanceTo := fun _ => 0, radius := 1,
    extendsFrom := ⟨0, 0, 0⟩, extendsTo := ⟨1, 1, 1⟩ }

def cellW0 : Cell :=
  { p := fun _ => ⟨0, 0, 0⟩, val := fun _ => 0, iFlagIndex := 0 }

def cellW1 : Cell :=
  { p := fun i => if i = 0 then ⟨0, 0, 0⟩ else ⟨1, 0, 0⟩,
    val := fun i => if i = 0 then 0 else 1, iFlagIndex := 1 }


/-! Helper lemmas. -/

@[simp] theorem Vec3.add_def (a b : Vec3) :
    a + b = ⟨a.x + b.x, a.y + b.y, a.z + b.z⟩ := rfl

@[simp] theorem Vec3.sub_def (a b : Vec3) :
    a - b = ⟨a.x - b.x, a.y - b.y, a.z - b.z⟩ := rfl

@[simp] theorem Vec3.smul_def (c : ℚ) (v : Vec3) :
    c • v = ⟨c * v.x, c * v.y, c * v.z⟩ := rfl

theorem foldl_set_length (ws : List (ℕ × ℚ)) (f : List ℚ) :
    (ws.foldl (fun field w => field.set w.1 w.2) f).length = f.length := by
  induction ws generalizing f with
  | nil => rfl
  | cons w rest ih => simp [ih, List.length_set]

theorem foldl_set_of_all_ne (ws : List (ℕ × ℚ)) (f : List ℚ) (i : ℕ)
    (h : ∀ w ∈ ws, w.1 ≠ i) :
    (ws.foldl (fun field w => field.set w.1 w.2) f)[i]? = f[i]? := by
  induction ws generalizing f with
  | nil => rfl
  | cons w rest ih =>
    have hw : w.1 ≠ i := h w (by simp)
    rw [List.foldl_cons, ih _ (fun u hu => h u (by simp [hu])),
      List.getElem?_set_ne hw]

theorem foldl_set_getElem (ws : List (ℕ × ℚ)) (f : List ℚ) (i : ℕ) (v : ℚ)
    (hi : i < f.length) (hmem : (i, v) ∈ ws)
    (huniq : ∀ w ∈ ws, w.1 = i → w.2 = v) :
    (ws.foldl (fun field w => field.set w.1 w.2) f)[i]? = some v := by
  induction ws generalizing f with
  | nil => simp at hmem
  | cons w rest ih =>
    rw [List.foldl_cons]
    by_cases hr : (i, v) ∈ rest
    · exact ih _ (by simpa [List.length_set] using hi) hr
        (fun u hu => huniq u (by simp [hu]))
    · have hw : w = (i, v) := by
        rcases List.mem_cons.mp hmem with h | h
        · exact h.symm
        · exact absurd h hr
      subst hw
      have hrest : ∀ u ∈ rest, u.1 ≠ i := by
        intro u hu hui
        have hv : u.2 = v := huniq u (by simp [hu]) hui
        exact hr (by rw [← hui, ← hv] at hr ⊢; exact hu)
      rw [foldl_set_of_all_ne _ _ _ hrest]
      simp [List.getElem?_set_self, hi]

theorem mulAddLtCancel {a b x y w : ℕ} (hx : x < w) (hy : y < w)
    (h : a * w + x = b * w + y) : a = b ∧ x = y := by
  have hw : 0 < w := by omega
  have hmod : x = y := by
    have h2 := congrArg (fun t => t % w) h
    simpa [Nat.add_comm, Nat.mul_comm, Nat.add_mul_mod_self_left,
      Nat.mod_eq_of_lt hx, Nat.mod_eq_of_lt hy] using h2
  refine ⟨?_, hmod⟩
  subst hmod
  have hmul : a * w = b * w := by omega
  exact Nat.eq_of_mul_eq_mul_right hw hmul

theorem getMapIndex_toNat (x y z xA yA zA : ℕ) :
    (getMapIndex x y z (xA + 1) (yA + 1) (zA + 1)).toNat =
      z * (xA + 1) * (yA + 1) + y * (xA + 1) + x := by
  have hcast : ((z * (xA + 1) * (yA + 1) + y * (xA + 1) + x : ℕ) : ℤ) =
      (z : ℤ) * ((xA : ℤ) + 1) * ((yA : ℤ) + 1) + (y : ℤ) * ((xA : ℤ) + 1) + x := by
    push_cast; ring
  rw [getMapIndex, ← hcast, Int.toNat_natCast]

theorem getMapIndex_lt {x y z w h d : ℕ} (hx : x < w) (hy : y < h) (hz : z < d) :
    z * w * h + y * w + x < w * h * d := by
  have h1 : y * w + x < h * w := by
    calc y * w + x < y * w + w := by omega
    _ = (y + 1) * w := by ring
    _ ≤ h * w := Nat.mul_le_mul_right w (by omega)
  calc z * w * h + y * w + x < z * (w * h) + h * w := by
        have : z * w * h = z * (w * h) := by ring
        omega
    _ = (z + 1) * (w * h) := by ring
    _ ≤ d * (w * h) := Nat.mul_le_mul_right (w * h) (by omega)
    _ = w * h * d := by ring

theorem getMapIndex_inj {x y z xx yy zz xA yA zA : ℕ}
    (hx : x < xA + 1) (hy : y < yA + 1) (hxx : xx < xA + 1) (hyy : yy < yA + 1)
    (heq : getMapIndex x y z (xA + 1) (yA + 1) (zA + 1) =
      getMapIndex xx yy zz (xA + 1) (yA + 1) (zA + 1)) :
    x = xx ∧ y = yy ∧ z = zz := by
  have hnat : z * (xA + 1) * (yA + 1) + y * (xA + 1) + x =
      zz * (xA + 1) * (yA + 1) + yy * (xA + 1) + xx := by
    have := congrArg Int.toNat heq
    rwa [getMapIndex_toNat, getMapIndex_toNat] at this
  have hgrp : (z * (yA + 1) + y) * (xA + 1) + x =
      (zz * (yA + 1) + yy) * (xA + 1) + xx := by
    calc (z * (yA + 1) + y) * (xA + 1) + x
        = z * (xA + 1) * (yA + 1) + y * (xA + 1) + x := by ring
    _ = zz * (xA + 1) * (yA + 1) + yy * (xA + 1) + xx := hnat
    _ = (zz * (yA + 1) + yy) * (xA + 1) + xx := by ring
  obtain ⟨houter, hxeq⟩ := mulAddLtCancel hx hxx hgrp
  obtain ⟨hzeq, hyeq⟩ := mulAddLtCancel hy hyy houter
  exact ⟨hxeq, hyeq, hzeq⟩

theorem mem_scalarWrites {w : ℕ × ℚ} {sk : List SkeletonNode} {efrom : Vec3}
    {cs : ℚ} {xA yA zA : ℕ} :
    w ∈ scalarWrites sk efrom cs xA yA zA ↔
      ∃ z < zA + 1, ∃ y < yA + 1, ∃ x < xA + 1,
        ((getMapIndex x y z (xA + 1) (yA + 1) (zA + 1)).toNat,
          IsoValue sk ⟨efrom.x + x * cs, efrom.y + y * cs, efrom.z + z * cs⟩) = w := by
  constructor
  · intro hw
    simp only [scalarWrites, List.mem_flatMap, List.mem_map, List.mem_range] at hw
    obtain ⟨z, hz, y, hy, x, hx, hwx⟩ := hw
    exact ⟨z, hz, y, hy, x, hx, hwx⟩
  · rintro ⟨z, hz, y, hy, x, hx, rfl⟩
    simp only [scalarWrites, List.mem_flatMap, List.mem_map, List.mem_range]
    exact ⟨z, hz, y, hy, x, hx, rfl⟩

theorem cubeOffsets_le (i : ℕ) :
    (cubeOffsets i).1 ≤ 1 ∧ (cubeOffsets i).2.1 ≤ 1 ∧ (cubeOffsets i).2.2 ≤ 1 := by
  rcases i with _|_|_|_|_|_|_|_|i <;> simp [cubeOffsets]

theorem scalarField_len (sk : List SkeletonNode) (efrom : Vec3) (cs : ℚ)
    (xA yA zA : ℕ) :
    (fillScalarField sk efrom cs xA yA zA).length =
      (xA + 1) * (yA + 1) * (zA + 1) := by
  rw [fillScalarField, foldl_set_length, List.length_replicate]

theorem scalarField_read (sk : List SkeletonNode) (efrom : Vec3) (cs : ℚ)
    (xA yA zA : ℕ) (x y z : ℕ) (hx : x ≤ xA) (hy : y ≤ yA) (hz : z ≤ zA) :
    (fillScalarField sk efrom cs xA yA zA)[(getMapIndex x y z (xA + 1) (yA + 1) (zA + 1)).toNat]? =
      some (IsoValue sk ⟨efrom.x + x * cs, efrom.y + y * cs, efrom.z + z * cs⟩) := by
  rw [fillScalarField]
  apply foldl_set_getElem
  · rw [List.length_replicate, getMapIndex_toNat]
    exact getMapIndex_lt (by omega) (by omega) (by omega)
  · exact mem_scalarWrites.mpr ⟨z, by omega, y, by omega, x, by omega, rfl⟩
  · intro u hu hfst
    obtain ⟨zz, hzz, yy, hyy, xx, hxx, rfl⟩ := mem_scalarWrites.mp hu
    simp only at hfst
    have hcast : getMapIndex xx yy zz (xA + 1) (yA + 1) (zA + 1) =
        getMapIndex x y z (xA + 1) (yA + 1) (zA + 1) := by
      rw [getMapIndex_toNat, getMapIndex_toNat] at hfst
      rw [getMapIndex, getMapIndex]
      have hcast2 : ((zz * (xA + 1) * (yA + 1) + yy * (xA + 1) + xx : ℕ) : ℤ) =
          ((z * (xA + 1) * (yA + 1) + y * (xA + 1) + x : ℕ) : ℤ) := by
        exact_mod_cast congrArg (fun (t : ℕ) => (t : ℤ)) hfst
      push_cast at hcast2
      linarith [hcast2]
    obtain ⟨hxe, hye, hze⟩ :=
      getMapIndex_inj (by omega) (by omega) (by omega) (by omega) hcast
    subst hxe; subst hye; subst hze
    rfl

theorem buildCell_val_eq (sk : List SkeletonNode) (efrom : Vec3) (cs tv : ℚ)
    (xA yA zA : ℕ) (x y z : ℕ) (hx : x < xA) (hy : y < yA) (hz : z < zA) (i : ℕ) :
    (buildCell (fillScalarField sk efrom cs xA yA zA) xA yA zA efrom cs tv x y z).val i =
      IsoValue sk
        ⟨efrom.x + (x + (cubeOffsets i).1 : ℕ) * cs,
         efrom.y + (y + (cubeOffsets i).2.1 : ℕ) * cs,
         efrom.z + (z + (cubeOffsets i).2.2 : ℕ) * cs⟩ := by
  obtain ⟨h1, h2, h3⟩ := cubeOffsets_le i
  have hread := scalarField_read sk efrom cs xA yA zA
    (x + (cubeOffsets i).1) (y + (cubeOffsets i).2.1) (z + (cubeOffsets i).2.2)
    (by omega) (by omega) (by omega)
  push_cast at hread
  simp only [buildCell]
  rw [List.getD_eq_getElem?_getD]
  push_cast
  rw [hread]
  rfl

theorem cube_amount_eq (bb cs : ℚ) (h0 : 0 < cs) (hgt : cs < bb) :
    ((cppFloatToInt (bb / cs + 1)).toNat : ℤ) = ⌊bb / cs⌋ + 1 := by
  have hq : 1 < bb / cs := (one_lt_div h0).mpr hgt
  have hpos : ¬(bb / cs + 1 < 0) := by linarith
  have hfl : (1 : ℤ) ≤ ⌊bb / cs⌋ := by
    rw [Int.le_floor]; exact_mod_cast hq.le
  rw [cppFloatToInt, if_neg hpos]
  have : ⌊bb / cs + 1⌋ = ⌊bb / cs⌋ + 1 := by
    exact_mod_cast Int.floor_add_int (bb / cs) 1
  rw [this, Int.toNat_of_nonneg (by omega)]

theorem triLoop_length_le (tT : ℕ → ℕ → ℤ) (ci : ℕ) (mk : ℕ → Triangle)
    (iT fuel : ℕ) : (triLoop tT ci mk iT fuel).length ≤ fuel := by
  induction fuel generalizing iT with
  | zero => simp [triLoop]
  | succ f ih =>
    rw [triLoop]
    split
    · simp
    · simpa using ih (iT + 1)

theorem triLoop_get (tT : ℕ → ℕ → ℤ) (ci : ℕ) (mk : ℕ → Triangle)
    (iT fuel : ℕ) (j : ℕ) (hj : j < (triLoop tT ci mk iT fuel).length) :
    0 ≤ tT ci (3 * (iT + j)) ∧
      (triLoop tT ci mk iT fuel)[j]? = some (mk (iT + j)) := by
  induction fuel generalizing iT j with
  | zero => simp [triLoop] at hj
  | succ f ih =>
    by_cases hneg : tT ci (3 * iT) < 0
    · rw [triLoop] at hj
      simp [hneg] at hj
    · cases j with
      | zero =>
        refine ⟨by simpa using not_lt.mp hneg, ?_⟩
        simp [triLoop, hneg]
      | succ k =>
        have hj2 : k < (triLoop tT ci mk (iT + 1) f).length := by
          rw [triLoop] at hj
          simpa [hneg] using hj
        obtain ⟨ha, hb⟩ := ih (iT + 1) k hj2
        have harith : iT + 1 + k = iT + (k + 1) := by omega
        constructor
        · rwa [harith] at ha
        · rw [harith] at hb
          rw [triLoop, if_neg hneg]
          simpa using hb

theorem triLoop_sentinel (tT : ℕ → ℕ → ℤ) (ci : ℕ) (mk : ℕ → Triangle)
    (iT fuel : ℕ) (h : (triLoop tT ci mk iT fuel).length < fuel) :
    tT ci (3 * (iT + (triLoop tT ci mk iT fuel).length)) < 0 := by
  induction fuel generalizing iT with
  | zero => simp at h
  | succ f ih =>
    by_cases hneg : tT ci (3 * iT) < 0
    · simpa [triLoop, hneg] using hneg
    · have hlen : (triLoop tT ci mk iT (f + 1)).length =
          (triLoop tT ci mk (iT + 1) f).length + 1 := by
        simp [triLoop, hneg]
      have hf : (triLoop tT ci mk (iT + 1) f).length < f := by omega
      have := ih (iT + 1) hf
      rw [hlen]
      have harith : iT + 1 + (triLoop tT ci mk (iT + 1) f).length =
          iT + ((triLoop tT ci mk (iT + 1) f).length + 1) := by omega
      rw [harith] at this
      exact this

theorem range2 : List.range 2 = [0, 1] := rfl

theorem range3 : List.range 3 = [0, 1, 2] := rfl

theorem range8 : List.range 8 = [0, 1, 2, 3, 4, 5, 6, 7] := rfl

theorem aiCEF_0 : aiCubeEdgeFlags 0 = 0 := by decide

theorem aiCEF_1 : aiCubeEdgeFlags 1 = 265 := by decide

theorem aiCEF_255 : aiCubeEdgeFlags 255 = 0 := by decide

theorem isoA_eval (p : Vec3) :
    IsoValue [nodeA] p = if p = ⟨0, 0, 0⟩ then 0 else 1 := by
  by_cases h : p = ⟨0, 0, 0⟩ <;> norm_num [IsoValue, nodePotential, nodeA, h]

theorem field1_eval : fillScalarField [nodeA] ⟨0, 0, 0⟩ 1 2 2 2 = fld1 := by
  simp only [fillScalarField, scalarWrites, show (2:ℕ)+1 = 3 from rfl, range3]
  norm_num [getMapIndex, isoA_eval, fld1, Vec3.mk.injEq]
  norm_num [List.set]

theorem fld1_cell_000 (efrom : Vec3) :
    (buildCell fld1 2 2 2 efrom 1 0 0 0 0).iFlagIndex = 1 := by
  simp only [buildCell, cubeOffsets, getMapIndex, range8, fld1]
  try norm_num
  try simp
  try norm_num
  try simp

theorem fld1_cell_100 (efrom : Vec3) :
    (buildCell fld1 2 2 2 efrom 1 0 1 0 0).iFlagIndex = 0 := by
  simp only [buildCell, cubeOffsets, getMapIndex, range8, fld1]
  try norm_num
  try simp
  try norm_num
  try simp

theorem fld1_cell_010 (efrom : Vec3) :
    (buildCell fld1 2 2 2 efrom 1 0 0 1 0).iFlagIndex = 0 := by
  simp only [buildCell, cubeOffsets, getMapIndex, range8, fld1]
  try norm_num
  try simp
  try norm_num
  try simp

theorem fld1_cell_110 (efrom : Vec3) :
    (buildCell fld1 2 2 2 efrom 1 0 1 1 0).iFlagIndex = 0 := by
  simp only [buildCell, cubeOffsets, getMapIndex, range8, fld1]
  try norm_num
  try simp
  try norm_num
  try simp

theorem fld1_cell_001 (efrom : Vec3) :
    (buildCell fld1 2 2 2 efrom 1 0 0 0 1).iFlagIndex = 0 := by
  simp only [buildCell, cubeOffsets, getMapIndex, range8, fld1]
  try norm_num
  try simp
  try norm_num
  try simp

theorem fld1_cell_101 (efrom : Vec3) :
    (buildCell fld1 2 2 2 efrom 1 0 1 0 1).iFlagIndex = 0 := by
  simp only [buildCell, cubeOffsets, getMapIndex, range8, fld1]
  try norm_num
  try simp
  try norm_num
  try simp

theorem fld1_cell_011 (efrom : Vec3) :
    (buildCell fld1 2 2 2 efrom 1 0 0 1 1).iFlagIndex = 0 := by
  simp only [buildCell, cubeOffsets, getMapIndex, range8, fld1]
  try norm_num
  try simp
  try norm_num
  try simp

theorem fld1_cell_111 (efrom : Vec3) :
    (buildCell fld1 2 2 2 efrom 1 0 1 1 1).iFlagIndex = 0 := by
  simp only [buildCell, cubeOffsets, getMapIndex, range8, fld1]
  try norm_num
  try simp
  try norm_num
  try simp

theorem pc_100 (tT : ℕ → ℕ → ℤ) (sk : List SkeletonNode) (efrom : Vec3) (acc : MarchAcc) :
    processCell tT sk 1 0 fld1 2 2 2 efrom acc 1 0 0 = acc := by
  simp only [processCell, Triangulate, fld1_cell_100, aiCEF_0]
  simp

theorem pc_010 (tT : ℕ → ℕ → ℤ) (sk : List SkeletonNode) (efrom : Vec3) (acc : MarchAcc) :
    processCell tT sk 1 0 fld1 2 2 2 efrom acc 0 1 0 = acc := by
  simp only [processCell, Triangulate, fld1_cell_010, aiCEF_0]
  simp

theorem pc_110 (tT : ℕ → ℕ → ℤ) (sk : List SkeletonNode) (efrom : Vec3) (acc : MarchAcc) :
    processCell tT sk 1 0 fld1 2 2 2 efrom acc 1 1 0 = acc := by
  simp only [processCell, Triangulate, fld1_cell_110, aiCEF_0]
  simp

theorem pc_001 (tT : ℕ → ℕ → ℤ) (sk : List SkeletonNode) (efrom : Vec3) (acc : MarchAcc) :
    processCell tT sk 1 0 fld1 2 2 2 efrom acc 0 0 1 = acc := by
  simp only [processCell, Triangulate, fld1_cell_001, aiCEF_0]
  simp

theorem pc_101 (tT : ℕ → ℕ → ℤ) (sk : List SkeletonNode) (efrom : Vec3) (acc : MarchAcc) :
    processCell tT sk 1 0 fld1 2 2 2 efrom acc 1 0 1 = acc := by
  simp only [processCell, Triangulate, fld1_cell_101, aiCEF_0]
  simp

theorem pc_011 (tT : ℕ → ℕ → ℤ) (sk : List SkeletonNode) (efrom : Vec3) (acc : MarchAcc) :
    processCell tT sk 1 0 fld1 2 2 2 efrom acc 0 1 1 = acc := by
  simp only [processCell, Triangulate, fld1_cell_011, aiCEF_0]
  simp

theorem pc_111 (tT : ℕ → ℕ → ℤ) (sk : List SkeletonNode) (efrom : Vec3) (acc : MarchAcc) :
    processCell tT sk 1 0 fld1 2 2 2 efrom acc 1 1 1 = acc := by
  simp only [processCell, Triangulate, fld1_cell_111, aiCEF_0]
  simp

theorem fld1_val0 (efrom : Vec3) :
    (buildCell fld1 2 2 2 efrom 1 0 0 0 0).val 0 = 0 := by
  simp only [buildCell, cubeOffsets, getMapIndex, fld1]
  norm_num

theorem fld1_val1 (efrom : Vec3) :
    (buildCell fld1 2 2 2 efrom 1 0 0 0 0).val 1 = 1 := by
  simp only [buildCell, cubeOffsets, getMapIndex, fld1]
  norm_num

theorem fld1_val3 (efrom : Vec3) :
    (buildCell fld1 2 2 2 efrom 1 0 0 0 0).val 3 = 1 := by
  simp only [buildCell, cubeOffsets, getMapIndex, fld1]
  norm_num
  simp

theorem fld1_val4 (efrom : Vec3) :
    (buildCell fld1 2 2 2 efrom 1 0 0 0 0).val 4 = 1 := by
  simp only [buildCell, cubeOffsets, getMapIndex, fld1]
  norm_num
  simp

theorem fld1_p (efrom : Vec3) (i : ℕ) :
    (buildCell fld1 2 2 2 efrom 1 0 0 0 0).p i =
      ⟨efrom.x + ((cubeOffsets i).1 : ℕ), efrom.y + ((cubeOffsets i).2.1 : ℕ),
        efrom.z + ((cubeOffsets i).2.2 : ℕ)⟩ := by
  simp [buildCell]

theorem fld1_edge0 (efrom : Vec3) :
    asEdgeVertex (buildCell fld1 2 2 2 efrom 1 0 0 0 0) 0 =
      ⟨efrom.x, efrom.y, efrom.z⟩ := by
  simp only [asEdgeVertex, fld1_cell_000, aiCEF_1,
    show Nat.testBit 265 0 = true from by decide, if_true]
  norm_num [interpEdgeVertex, a2iEdgeConnection, fld1_val0, fld1_val1, fld1_p, cubeOffsets]

theorem fld1_edge3 (efrom : Vec3) :
    asEdgeVertex (buildCell fld1 2 2 2 efrom 1 0 0 0 0) 3 =
      ⟨efrom.x, efrom.y, efrom.z⟩ := by
  simp only [asEdgeVertex, fld1_cell_000, aiCEF_1,
    show Nat.testBit 265 3 = true from by decide, if_true]
  norm_num [interpEdgeVertex, a2iEdgeConnection, fld1_val0, fld1_val3, fld1_p, cubeOffsets]

theorem fld1_edge8 (efrom : Vec3) :
    asEdgeVertex (buildCell fld1 2 2 2 efrom 1 0 0 0 0) 8 =
      ⟨efrom.x, efrom.y, efrom.z⟩ := by
  simp only [asEdgeVertex, fld1_cell_000, aiCEF_1,
    show Nat.testBit 265 8 = true from by decide, if_true]
  norm_num [interpEdgeVertex, a2iEdgeConnection, fld1_val0, fld1_val4, fld1_p, cubeOffsets]

theorem fld1_triangulate (efrom : Vec3) :
    Triangulate triTableRef (buildCell fld1 2 2 2 efrom 1 0 0 0 0) =
      [{ p := fun iCorner =>
          asEdgeVertexZ (buildCell fld1 2 2 2 efrom 1 0 0 0 0)
            (triTableRef 1 (3 * 0 + iCorner)) }] := by
  simp only [Triangulate, fld1_cell_000, aiCEF_1]
  norm_num [triLoop, triTableRef]

theorem pcA_000 :
    processCell triTableRef [nodeA] 1 0 fld1 2 2 2 ⟨0, 0, 0⟩ ⟨[], 0, [], [], []⟩ 0 0 0 =
      ⟨[(⟨0, 0, 0⟩, 0)], 1, [⟨0, 0, 0⟩], [⟨0, 0, 0⟩], [⟨0, 0, 0⟩]⟩ := by
  rw [processCell, fld1_triangulate]
  simp only [List.foldl_cons, List.foldl_nil, processTriangle]
  simp [asEdgeVertexZ, triTableRef, fld1_edge0, fld1_edge3, fld1_edge8]
  try norm_num [processCorner, hashFind, getNormal, isoA_eval]
  try simp
  try norm_num

theorem marchA :
    marchCubes triTableRef [nodeA] 1 0 fld1 2 2 2 ⟨0, 0, 0⟩ ⟨[], 0, [], [], []⟩ =
      ⟨[(⟨0, 0, 0⟩, 0)], 1, [⟨0, 0, 0⟩], [⟨0, 0, 0⟩], [⟨0, 0, 0⟩]⟩ := by
  simp only [marchCubes, range2, List.foldl_cons, List.foldl_nil,
    pcA_000, pc_100, pc_010, pc_110, pc_001, pc_101, pc_011, pc_111]

theorem extA : foldExtends [nodeA] = (⟨0, 0, 0⟩, ⟨3/2, 3/2, 3/2⟩) := by
  norm_num [foldExtends, nodeA, FLT_MAX]

theorem calcA : calculate triTableRef [nodeA] 1 0 0 initState = stateA := by
  try norm_num [calculate, generateObject, extA, cppFloatToInt, initState, stateA]
  try simp [field1_eval, marchA]
  try norm_num [field1_eval, marchA]
  try simp

theorem getD_replicate_self (n k : ℕ) (a : ℚ) :
    (List.replicate n a).getD k a = a := by
  induction n generalizing k with
  | zero => simp
  | succ m ih =>
    cases k with
    | zero => simp
    | succ j => simpa using ih j

theorem fld0_read (k : ℕ) : fld0.getD k 0 = 0 := by
  simpa [fld0] using getD_replicate_self 27 k 0

theorem fld0_cell (efrom : Vec3) (x y z : ℕ) :
    (buildCell fld0 2 2 2 efrom 1 0 x y z).iFlagIndex = 255 := by
  simp only [buildCell, range8, fld0_read]
  norm_num
  decide

theorem pc_fld0 (tT : ℕ → ℕ → ℤ) (sk : List SkeletonNode) (efrom : Vec3)
    (acc : MarchAcc) (x y z : ℕ) :
    processCell tT sk 1 0 fld0 2 2 2 efrom acc x y z = acc := by
  simp only [processCell, Triangulate, fld0_cell, aiCEF_255]
  simp

theorem march0 (tT : ℕ → ℕ → ℤ) (sk : List SkeletonNode) (efrom : Vec3) (acc : MarchAcc) :
    marchCubes tT sk 1 0 fld0 2 2 2 efrom acc = acc := by
  simp only [marchCubes, range2, List.foldl_cons, List.foldl_nil, pc_fld0]

theorem field0_eval : fillScalarField [] ⟨0, 0, 0⟩ 1 2 2 2 = fld0 := by
  simp only [fillScalarField, scalarWrites, show (2:ℕ)+1 = 3 from rfl, range3]
  norm_num [getMapIndex, IsoValue, fld0]
  norm_num [List.set, List.replicate]

theorem updA : update triTableRef [] stateA = stateUpd := by
  try norm_num [update, generateObject, cppFloatToInt, stateA, stateUpd]
  try simp [field0_eval, march0]
  try norm_num [field0_eval, march0]
  try simp

theorem isoT1_eval (p : Vec3) :
    IsoValue [nodeT1] p =
      if p = ⟨0, 0, 0⟩ then 0 else if p = ⟨0, -1, -1⟩ then 0 else 1 := by
  by_cases h1 : p = ⟨0, 0, 0⟩
  · norm_num [IsoValue, nodePotential, nodeT1, h1]
  · by_cases h2 : p = ⟨0, -1, -1⟩ <;>
      norm_num [IsoValue, nodePotential, nodeT1, h1, h2]

theorem isoT2_eval (p : Vec3) :
    IsoValue [nodeT2] p =
      if p = ⟨0, 1, 0⟩ then 0 else if p = ⟨0, 0, -1⟩ then 0 else 1 := by
  obtain ⟨a, b, c⟩ := p
  by_cases h1 : a = 0 ∧ b = 1 ∧ c = 0
  · obtain ⟨rfl, rfl, rfl⟩ := h1
    norm_num [IsoValue, nodePotential, nodeT2, translateNode, nodeT1]
  · by_cases h2 : a = 0 ∧ b = 0 ∧ c = -1
    · obtain ⟨rfl, rfl, rfl⟩ := h2
      norm_num [IsoValue, nodePotential, nodeT2, translateNode, nodeT1]
    · have e1 : ¬(a = 0 ∧ b - 1 = 0 ∧ c = 0) := fun hcon =>
        h1 ⟨hcon.1, by linarith [hcon.2.1], hcon.2.2⟩
      have e2 : ¬(a = 0 ∧ b = 0 ∧ c = -1) := h2
      have e3 : ¬((⟨a, b, c⟩ : Vec3) = ⟨0, 1, 0⟩) := by
        simp only [Vec3.mk.injEq]; exact h1
      have e4 : ¬((⟨a, b, c⟩ : Vec3) = ⟨0, 0, -1⟩) := by
        simp only [Vec3.mk.injEq]; exact h2
      norm_num [IsoValue, nodePotential, nodeT2, translateNode, nodeT1, e1, e2, e3, e4]

theorem fieldT1_eval : fillScalarField [nodeT1] ⟨0, 0, 0⟩ 1 2 2 2 = fld1 := by
  simp only [fillScalarField, scalarWrites, show (2:ℕ)+1 = 3 from rfl, range3]
  norm_num [getMapIndex, isoT1_eval, fld1, Vec3.mk.injEq]
  norm_num [List.set]

theorem fieldT2_eval : fillScalarField [nodeT2] ⟨0, 1, 0⟩ 1 2 2 2 = fld1 := by
  simp only [fillScalarField, scalarWrites, show (2:ℕ)+1 = 3 from rfl, range3]
  norm_num [getMapIndex, isoT2_eval, fld1, Vec3.mk.injEq]
  norm_num [List.set]

theorem pcT1_000 :
    processCell triTableRef [nodeT1] 1 0 fld1 2 2 2 ⟨0, 0, 0⟩ ⟨[], 0, [], [], []⟩ 0 0 0 =
      ⟨[(⟨0, 0, 0⟩, 0)], 1, [⟨0, 0, 0⟩], [⟨0, 0, 0⟩], [⟨0, 0, 0⟩]⟩ := by
  rw [processCell, fld1_triangulate]
  simp only [List.foldl_cons, List.foldl_nil, processTriangle]
  simp [asEdgeVertexZ, triTableRef, fld1_edge0, fld1_edge3, fld1_edge8]
  try norm_num [processCorner, hashFind, getNormal, isoT1_eval]
  try simp
  try norm_num

theorem pcT2_000 :
    processCell triTableRef [nodeT2] 1 0 fld1 2 2 2 ⟨0, 1, 0⟩ ⟨[], 0, [], [], []⟩ 0 0 0 =
      ⟨[(⟨0, 1, 0⟩, 0)], 1, [⟨0, 1, 0⟩], [⟨0, 0, -1⟩], [⟨0, 0, 0⟩]⟩ := by
  rw [processCell, fld1_triangulate]
  simp only [List.foldl_cons, List.foldl_nil, processTriangle]
  simp [asEdgeVertexZ, triTableRef, fld1_edge0, fld1_edge3, fld1_edge8]
  try norm_num [processCorner, hashFind, getNormal, isoT2_eval]
  try simp
  try norm_num

theorem marchT1 :
    marchCubes triTableRef [nodeT1] 1 0 fld1 2 2 2 ⟨0, 0, 0⟩ ⟨[], 0, [], [], []⟩ =
      ⟨[(⟨0, 0, 0⟩, 0)], 1, [⟨0, 0, 0⟩], [⟨0, 0, 0⟩], [⟨0, 0, 0⟩]⟩ := by
  simp only [marchCubes, range2, List.foldl_cons, List.foldl_nil,
    pcT1_000, pc_100, pc_010, pc_110, pc_001, pc_101, pc_011, pc_111]

theorem marchT2 :
    marchCubes triTableRef [nodeT2] 1 0 fld1 2 2 2 ⟨0, 1, 0⟩ ⟨[], 0, [], [], []⟩ =
      ⟨[(⟨0, 1, 0⟩, 0)], 1, [⟨0, 1, 0⟩], [⟨0, 0, -1⟩], [⟨0, 0, 0⟩]⟩ := by
  simp only [marchCubes, range2, List.foldl_cons, List.foldl_nil,
    pcT2_000, pc_100, pc_010, pc_110, pc_001, pc_101, pc_011, pc_111]

theorem extT1 : foldExtends [nodeT1] = (⟨0, 0, 0⟩, ⟨3/2, 3/2, 3/2⟩) := by
  norm_num [foldExtends, nodeT1, FLT_MAX]

theorem extT2 : foldExtends [nodeT2] = (⟨0, 1, 0⟩, ⟨3/2, 5/2, 3/2⟩) := by
  norm_num [foldExtends, nodeT2, translateNode, nodeT1, FLT_MAX]

theorem calcT1 : calculate triTableRef [nodeT1] 1 0 0 initState = stateT1 := by
  try norm_num [calculate, generateObject, extT1, cppFloatToInt, initState, stateT1]
  try simp [fieldT1_eval, marchT1]
  try norm_num [fieldT1_eval, marchT1]
  try simp

theorem calcT2 : calculate triTableRef [nodeT2] 1 0 0 initState = stateT2 := by
  try norm_num [calculate, generateObject, extT2, cppFloatToInt, initState, stateT2]
  try simp [fieldT2_eval, marchT2]
  try norm_num [fieldT2_eval, marchT2]
  try simp


/-! Claim theorems, witnesses and counterexamples. -/

/-- C1: the claim states that IsoValue sums the kernel over every skeleton node,
not only the first.  Counterexample from the code: with two identical nodes
at distance 0 from the query point (kernel value 1 each), IsoValue returns
1, because the unconditional break at Isosurface.cpp line 340 stops the loop
after the first node, while the spec-side sum IsoValueSpec returns 2. -/
theorem isovalue_break_counterexample :
    IsoValue [nodeC1, nodeC1] ⟨5, 5, 5⟩ = 1 ∧
    IsoValueSpec [nodeC1, nodeC1] ⟨5, 5, 5⟩ = 2 := by
  constructor <;> norm_num [IsoValue, IsoValueSpec, nodePotential, nodeC1]

/-- C2: the claim states that the z component of the gradient samples IsoValue
at (v.x, v.y, v.z - h) and (v.x, v.y, v.z + h).  Counterexample from the
code: Isosurface.cpp line 307 samples (v.x, v.z, v.z - h) instead, so at
vertex (0, 5, 0) over a node whose field distinguishes the two candidate
sample points the code gradient is (0, 0, -1) while the spec-side gradient
is (0, 0, 0); the two still differ after L2 normalization, one being zero
and the other not. -/
theorem getnormal_z_sample_counterexample :
    getNormal [nodeC2] 1 ⟨0, 5, 0⟩ = ⟨0, 0, -1⟩ ∧
    getNormalSpec [nodeC2] 1 ⟨0, 5, 0⟩ = ⟨0, 0, 0⟩ := by
  constructor <;>
    norm_num [getNormal, getNormalSpec, IsoValue, nodePotential, nodeC2, Vec3.mk.injEq]

/-- C3: the claim states that after every sequence of calculate and update calls
the mesh satisfies |normals| = |vertices|, every stored triangle index lies
in [0, |vertices|) and no position occurs twice among the vertices.
Counterexample: a calculate producing a one-triangle mesh followed by update
with an empty skeleton violates meshInvariant, because update
(Isosurface.cpp lines 79-86) clears mVertices and mNormals but neither
mTriangles nor mVertexHash, leaving a stale triangle whose index 0 falls
outside the now-empty vertex array. -/
theorem mesh_invariant_update_counterexample :
    ¬ meshInvariant (update triTableRef [] (calculate triTableRef [nodeA] 1 0 0 initState)) := by
  rw [calcA, updA]
  intro h
  obtain ⟨-, htri, -⟩ := h
  have hbad := htri ⟨0, 0, 0⟩ (by simp [stateUpd])
  simp [stateUpd] at hbad

/-- C4: for every cell and every triangle connection table, Triangulate looks up
edgeFlags = aiCubeEdgeFlags(flagIndex) and emits no triangles when it is
zero; for each of the 12 edges whose bit is set, the stored edge vertex
equals p[p1] + t (p[p2] - p[p1]) with t = val[p1] / (val[p1] + val[p2]) and
p1, p2 the corners of the edge from a2iEdgeConnection; the output is read
from the table row three edge indices at a time, stopping at the -1
sentinel, yielding at most 5 triangles. -/
theorem Triangulate_per_cell (tT : ℕ → ℕ → ℤ) (cell : Cell) :
    (aiCubeEdgeFlags cell.iFlagIndex = 0 → Triangulate tT cell = []) ∧
    (Triangulate tT cell).length ≤ 5 ∧
    (∀ e : ℕ, (aiCubeEdgeFlags cell.iFlagIndex).testBit e = true →
      asEdgeVertex cell e =
        cell.p (a2iEdgeConnection e).1 +
          (cell.val (a2iEdgeConnection e).1 /
            (cell.val (a2iEdgeConnection e).1 + cell.val (a2iEdgeConnection e).2)) •
            (cell.p (a2iEdgeConnection e).2 - cell.p (a2iEdgeConnection e).1)) ∧
    (∀ j : ℕ, j < (Triangulate tT cell).length →
      0 ≤ tT cell.iFlagIndex (3 * j) ∧
      ∃ tri : Triangle, (Triangulate tT cell)[j]? = some tri ∧
        tri.p = fun iCorner =>
          asEdgeVertexZ cell (tT cell.iFlagIndex (3 * j + iCorner))) ∧
    ((Triangulate tT cell).length < 5 → aiCubeEdgeFlags cell.iFlagIndex ≠ 0 →
      tT cell.iFlagIndex (3 * (Triangulate tT cell).length) < 0) := by
  refine ⟨fun h => by simp [Triangulate, h], ?_, ?_, ?_, ?_⟩
  · rw [Triangulate]
    split
    · simp
    · exact triLoop_length_le tT cell.iFlagIndex _ 0 5
  · intro e he
    rw [asEdgeVertex, if_pos he, interpEdgeVertex]
    rw [add_comm (cell.val (a2iEdgeConnection e).1) (cell.val (a2iEdgeConnection e).2)]
  · intro j hj
    by_cases h0 : aiCubeEdgeFlags cell.iFlagIndex = 0
    · rw [Triangulate] at hj
      simp [h0] at hj
    · have hTri : Triangulate tT cell = triLoop tT cell.iFlagIndex
          (fun iT => { p := fun iCorner =>
            asEdgeVertexZ cell (tT cell.iFlagIndex (3 * iT + iCorner)) }) 0 5 := by
        rw [Triangulate]; simp [h0]
      rw [hTri] at hj
      obtain ⟨ha, hb⟩ := triLoop_get tT cell.iFlagIndex _ 0 5 j hj
      have hzj : 0 + j = j := by omega
      rw [hzj] at ha hb
      refine ⟨ha, { p := fun iCorner =>
        asEdgeVertexZ cell (tT cell.iFlagIndex (3 * j + iCorner)) }, ?_, rfl⟩
      rw [hTri]
      exact hb
  · intro hlt hne
    have := triLoop_sentinel tT cell.iFlagIndex
      (fun iT => { p := fun iCorner =>
        asEdgeVertexZ cell (tT cell.iFlagIndex (3 * iT + iCorner)) }) 0 5 ?_
    · have hTri : Triangulate tT cell = triLoop tT cell.iFlagIndex
          (fun iT => { p := fun iCorner =>
            asEdgeVertexZ cell (tT cell.iFlagIndex (3 * iT + iCorner)) }) 0 5 := by
        rw [Triangulate]; simp [hne]
      rw [hTri]
      simpa using this
    · have hTri : Triangulate tT cell = triLoop tT cell.iFlagIndex
          (fun iT => { p := fun iCorner =>
            asEdgeVertexZ cell (tT cell.iFlagIndex (3 * iT + iCorner)) }) 0 5 := by
        rw [Triangulate]; simp [hne]
      rwa [hTri] at hlt

/-- Witness for C4: the theorem applied to triTableRef and two concrete cells,
one with zero edge flags and one with corner classification 1. -/
theorem Triangulate_per_cell_witness :
    Triangulate triTableRef cellW0 = [] ∧
    asEdgeVertex cellW1 0 =
      cellW1.p (a2iEdgeConnection 0).1 +
        (cellW1.val (a2iEdgeConnection 0).1 /
          (cellW1.val (a2iEdgeConnection 0).1 + cellW1.val (a2iEdgeConnection 0).2)) •
          (cellW1.p (a2iEdgeConnection 0).2 - cellW1.p (a2iEdgeConnection 0).1) ∧
    (Triangulate triTableRef cellW1).length ≤ 5 :=
  ⟨(Triangulate_per_cell triTableRef cellW0).1 (by decide),
   (Triangulate_per_cell triTableRef cellW1).2.2.1 0 (by decide),
   (Triangulate_per_cell triTableRef cellW1).2.1⟩

/-- C5: when every axis of the bounding box exceeds cubeSize, the cube amounts
computed by generateObject satisfy nx = floor(extent.x / cubeSize) + 1
(likewise ny, nz); the scalar field array has exactly (nx+1)(ny+1)(nz+1)
entries; slot idx(x,y,z) = z(nx+1)(ny+1) + y(nx+1) + x holds
IsoValue(extendsFrom + cubeSize (x,y,z)) for every corner of the grid;
distinct corners target distinct slots, so in the write sequence of
fillScalarField every slot is written exactly once; and the cell values read
by the marching phase agree with IsoValue at the corner positions, so all
writes precede all reads. -/
theorem scalar_field_phase_correct
    (sk : List SkeletonNode) (efrom eto : Vec3) (cs tv : ℚ)
    (h0 : 0 < cs)
    (hbx : (eto - efrom).x > cs) (hby : (eto - efrom).y > cs)
    (hbz : (eto - efrom).z > cs)
    (nx ny nz : ℕ)
    (hnx : nx = (cppFloatToInt ((eto - efrom).x / cs + 1)).toNat)
    (hny : ny = (cppFloatToInt ((eto - efrom).y / cs + 1)).toNat)
    (hnz : nz = (cppFloatToInt ((eto - efrom).z / cs + 1)).toNat) :
    ((nx : ℤ) = ⌊(eto.x - efrom.x) / cs⌋ + 1 ∧
     (ny : ℤ) = ⌊(eto.y - efrom.y) / cs⌋ + 1 ∧
     (nz : ℤ) = ⌊(eto.z - efrom.z) / cs⌋ + 1) ∧
    (fillScalarField sk efrom cs nx ny nz).length =
      (nx + 1) * (ny + 1) * (nz + 1) ∧
    (∀ x y z : ℕ, x ≤ nx → y ≤ ny → z ≤ nz →
      (fillScalarField sk efrom cs nx ny nz)[(getMapIndex x y z (nx + 1) (ny + 1) (nz + 1)).toNat]? =
        some (IsoValue sk ⟨efrom.x + x * cs, efrom.y + y * cs, efrom.z + z * cs⟩)) ∧
    (∀ x y z xx yy zz : ℕ, x ≤ nx → y ≤ ny → xx ≤ nx → yy ≤ ny →
      getMapIndex x y z (nx + 1) (ny + 1) (nz + 1) =
        getMapIndex xx yy zz (nx + 1) (ny + 1) (nz + 1) →
      x = xx ∧ y = yy ∧ z = zz) ∧
    (∀ x y z : ℕ, x < nx → y < ny → z < nz → ∀ i : ℕ,
      (buildCell (fillScalarField sk efrom cs nx ny nz) nx ny nz efrom cs tv x y z).val i =
        IsoValue sk
          ⟨efrom.x + (x + (cubeOffsets i).1 : ℕ) * cs,
           efrom.y + (y + (cubeOffsets i).2.1 : ℕ) * cs,
           efrom.z + (z + (cubeOffsets i).2.2 : ℕ) * cs⟩) := by
  refine ⟨⟨?_, ?_, ?_⟩, scalarField_len sk efrom cs nx ny nz,
    fun x y z hx hy hz => scalarField_read sk efrom cs nx ny nz x y z hx hy hz,
    fun x y z xx yy zz hx hy hxx hyy heq =>
      getMapIndex_inj (by omega) (by omega) (by omega) (by omega) heq,
    fun x y z hx hy hz i => buildCell_val_eq sk efrom cs tv nx ny nz x y z hx hy hz i⟩
  · rw [hnx]; exact cube_amount_eq ((eto - efrom).x) cs h0 hbx
  · rw [hny]; exact cube_amount_eq ((eto - efrom).y) cs h0 hby
  · rw [hnz]; exact cube_amount_eq ((eto - efrom).z) cs h0 hbz

/-- Witness for C5: the theorem applied to the empty skeleton on the box from
(0,0,0) to (3/2,3/2,3/2) with cubeSize 1, giving amounts 2, a 27-slot field
and the sampled value at corner (1,1,1). -/
theorem scalar_field_phase_correct_witness :
    (fillScalarField [] ⟨0, 0, 0⟩ 1 2 2 2).length = 27 ∧
    (((2 : ℕ) : ℤ) = ⌊((⟨3/2, 3/2, 3/2⟩ : Vec3).x - (⟨0, 0, 0⟩ : Vec3).x) / 1⌋ + 1) ∧
    (fillScalarField [] ⟨0, 0, 0⟩ 1 2 2 2)[(getMapIndex ((1:ℕ) : ℤ) ((1:ℕ) : ℤ) ((1:ℕ) : ℤ)
        (((2:ℕ) : ℤ) + 1) (((2:ℕ) : ℤ) + 1) (((2:ℕ) : ℤ) + 1)).toNat]? =
      some (IsoValue [] ⟨(⟨0, 0, 0⟩ : Vec3).x + ((1:ℕ) : ℚ) * 1,
        (⟨0, 0, 0⟩ : Vec3).y + ((1:ℕ) : ℚ) * 1, (⟨0, 0, 0⟩ : Vec3).z + ((1:ℕ) : ℚ) * 1⟩) := by
  have h := scalar_field_phase_correct [] ⟨0, 0, 0⟩ ⟨3/2, 3/2, 3/2⟩ 1 0
    (by norm_num) (by norm_num) (by norm_num) (by norm_num) 2 2 2
    (by rw [show ((⟨3/2, 3/2, 3/2⟩ : Vec3) - ⟨0, 0, 0⟩).x / 1 + 1 = (5/2 : ℚ) by norm_num,
          show cppFloatToInt (5/2 : ℚ) = 2 by norm_num [cppFloatToInt]]
        decide)
    (by rw [show ((⟨3/2, 3/2, 3/2⟩ : Vec3) - ⟨0, 0, 0⟩).y / 1 + 1 = (5/2 : ℚ) by norm_num,
          show cppFloatToInt (5/2 : ℚ) = 2 by norm_num [cppFloatToInt]]
        decide)
    (by rw [show ((⟨3/2, 3/2, 3/2⟩ : Vec3) - ⟨0, 0, 0⟩).z / 1 + 1 = (5/2 : ℚ) by norm_num,
          show cppFloatToInt (5/2 : ℚ) = 2 by norm_num [cppFloatToInt]]
        decide)
  exact ⟨h.2.1, h.1.1, h.2.2.1 1 1 1 (by omega) (by omega) (by omega)⟩

/-- C6: the claim states that every calculate or update call with an empty
skeleton collection returns an empty mesh (no vertices and no triangles).
Counterexample: after a calculate that produced a one-triangle mesh, update
with the empty skeleton returns |vertices| = 0 but |triangles| = 1, because
update does not clear mTriangles. -/
theorem update_empty_skeleton_counterexample :
    ¬ ((update triTableRef [] (calculate triTableRef [nodeA] 1 0 0 initState)).mVertices.length = 0 ∧
       (update triTableRef [] (calculate triTableRef [nodeA] 1 0 0 initState)).mTriangles.length = 0) := by
  rw [calcA, updA]
  simp [stateUpd]

/-- C7: the claim states that calculate aborts exactly when cubeSize <= 0 or
blend lies outside [0, NONE), so blend = NONE must abort.  The assertion of
Isosurface.cpp line 56 tests blend <= NONE, so calculateAssertsHold holds at
cubeSize = 1, blend = NONE even though validConfiguration does not: the code
fails to abort on the sentinel value. -/
theorem blend_assertion_boundary :
    calculateAssertsHold 1 NONE ∧ ¬ validConfiguration 1 NONE := by
  constructor
  · refine ⟨by norm_num, by norm_num [NONE], le_refl NONE⟩
  · intro h
    exact absurd h.2.2 (lt_irrefl NONE)

/-- C8: for every non-empty skeleton whose folded union bounding box measures at
most cubeSize on at least one axis, calculate skips generation entirely and
the resulting mesh is empty: generateObject returns before touching the
freshly cleared vertex, normal and triangle arrays. -/
theorem calculate_degenerate (tT : ℕ → ℕ → ℤ) (sk : List SkeletonNode)
    (cs : ℚ) (bl : ℤ) (tv : ℚ) (s : IsoState) (hne : sk ≠ [])
    (hdeg : ((foldExtends sk).2 - (foldExtends sk).1).x ≤ cs ∨
            ((foldExtends sk).2 - (foldExtends sk).1).y ≤ cs ∨
            ((foldExtends sk).2 - (foldExtends sk).1).z ≤ cs) :
    (calculate tT sk cs bl tv s).mVertices = [] ∧
    (calculate tT sk cs bl tv s).mNormals = [] ∧
    (calculate tT sk cs bl tv s).mTriangles = [] := by
  have hlen : 0 < sk.length := List.length_pos.mpr hne
  have hng : ¬(((foldExtends sk).2 - (foldExtends sk).1).x > cs ∧
      ((foldExtends sk).2 - (foldExtends sk).1).y > cs ∧
      ((foldExtends sk).2 - (foldExtends sk).1).z > cs) := by
    rcases hdeg with h | h | h
    · exact fun hcon => absurd hcon.1 (not_lt.mpr h)
    · exact fun hcon => absurd hcon.2.1 (not_lt.mpr h)
    · exact fun hcon => absurd hcon.2.2 (not_lt.mpr h)
  simp only [calculate, generateObject, hlen, if_true]
  simp only [hng, if_false]
  exact ⟨trivial, trivial, trivial⟩

/-- Witness for C8: the theorem applied to a single node with a unit bounding
box and cubeSize 1. -/
theorem calculate_degenerate_witness :
    (calculate triTableRef [nodeW] 1 0 0 initState).mVertices = [] ∧
    (calculate triTableRef [nodeW] 1 0 0 initState).mNormals = [] ∧
    (calculate triTableRef [nodeW] 1 0 0 initState).mTriangles = [] :=
  calculate_degenerate triTableRef [nodeW] 1 0 0 initState (by simp)
    (Or.inl (by norm_num [foldExtends, nodeW, FLT_MAX]))

/-- C9: the claim states that translating every skeleton node by Delta
translates every vertex by Delta and leaves the normals and the triangles
unchanged.  Counterexample: for nodeT1 and its translate by (0, 1, 0) the
vertices translate exactly and the triangles agree, but the normals differ,
(0, 0, 0) against (0, 0, -1), because the mistyped z sample of getNormal
(Isosurface.cpp line 307) reads the field at a point that does not move with
the vertex. -/
theorem translation_normals_counterexample :
    (calculate triTableRef [translateNode ⟨0, 1, 0⟩ nodeT1] 1 0 0 initState).mVertices =
      (calculate triTableRef [nodeT1] 1 0 0 initState).mVertices.map
        (fun v => v + ⟨0, 1, 0⟩) ∧
    (calculate triTableRef [translateNode ⟨0, 1, 0⟩ nodeT1] 1 0 0 initState).mTriangles =
      (calculate triTableRef [nodeT1] 1 0 0 initState).mTriangles ∧
    (calculate triTableRef [translateNode ⟨0, 1, 0⟩ nodeT1] 1 0 0 initState).mNormals ≠
      (calculate triTableRef [nodeT1] 1 0 0 initState).mNormals := by
  have hnode : [translateNode ⟨0, 1, 0⟩ nodeT1] = [nodeT2] := rfl
  rw [hnode, calcT1, calcT2]
  refine ⟨by norm_num [stateT1, stateT2], by norm_num [stateT1, stateT2], ?_⟩
  intro hcon
  have hheads : (⟨0, 0, -1⟩ : Vec3) = ⟨0, 0, 0⟩ := by
    simpa [stateT1, stateT2] using hcon
  simp [Vec3.mk.injEq] at hheads

/-- C10: the result of calculate depends only on its arguments: two calls with
identical skeleton, cubeSize, blend and targetValue on arbitrary prior
states produce identical objects, because calculate overwrites the argument
members, clears the vertex, normal, triangle and de-duplication members and
recomputes the extents before rebuilding. -/
theorem calculate_ignores_prior_state (tT : ℕ → ℕ → ℤ) (sk : List SkeletonNode)
    (cs : ℚ) (bl : ℤ) (tv : ℚ) (s1 s2 : IsoState) :
    calculate tT sk cs bl tv s1 = calculate tT sk cs bl tv s2 := by
  cases s1; cases s2; rfl


end MarchingCubes
